import Mathlib

/-!
Verification development for the jtd-codegen schema compiler and emitter
framework (JSON Type Definition, RFC 8927).

The definitions below are a shallow embedding of the Rust sources:
  * src/jtd-codegen/src/ast.rs           (TypeKeyword, Node, CompiledSchema)
  * src/jtd-codegen/src/compiler.rs      (compile, compile_node and friends)
  * src/jtd-codegen/src/emit_js/*        (CodeWriter, EmitContext, emitters)
  * src/jtd-codegen/src/emit_lua/*       (EmitContext, escape_lua)
  * src/jtd-codegen/src/emit_py/writer.rs
  * src/jtd-codegen/src/emit_rs/types.rs

JSON values are modelled by an inductive with association-list objects,
mirroring serde_json::Value as used by the compiler: the compiler only
ever calls as_object / as_str / as_array / as_bool and key lookup, so the
numeric payload is irrelevant and kept as an Int.  Recursive functions
over JSON and over the AST take an explicit fuel parameter; the Rust
originals recurse structurally, so any fuel larger than the nesting depth
is equivalent, and the public entry points pass sizeOf which dominates
the depth.
-/

/-- Model of serde_json::Value as consumed by the compiler. -/
inductive Json where
  | null : Json
  | bool : Bool → Json
  | num : Int → Json
  | str : String → Json
  | arr : List Json → Json
  | obj : List (String × Json) → Json
deriving Repr

/-- Model of Value::as_str. -/
def Json.asStr : Json → Option String
  | Json.str s => some s
  | _ => none

/-- Model of Value::as_bool. -/
def Json.asBool : Json → Option Bool
  | Json.bool b => some b
  | _ => none

/-- Model of Value::as_array. -/
def Json.asArray : Json → Option (List Json)
  | Json.arr xs => some xs
  | _ => none

/-- Model of Value::as_object. -/
def Json.asObj : Json → Option (List (String × Json))
  | Json.obj kvs => some kvs
  | _ => none

/-- Key membership in a JSON object (Map::contains_key). -/
def hasKey (kvs : List (String × Json)) (k : String) : Bool :=
  kvs.any (fun p => p.1 == k)

/-- Key lookup in a JSON object (Map::get). -/
def getKey (kvs : List (String × Json)) (k : String) : Option Json :=
  (kvs.find? (fun p => p.1 == k)).map (fun p => p.2)

/-- The 11 primitive type keywords of ast.rs (RFC 8927 section 2.2.3). -/
inductive TypeKeyword where
  | boolean | string | timestamp
  | int8 | uint8 | int16 | uint16 | int32 | uint32
  | float32 | float64
deriving Repr, DecidableEq

/-- TypeKeyword parsing from its lowercase identifier (ast.rs). -/
def TypeKeyword.parse (s : String) : Option TypeKeyword :=
  if s == "boolean" then some TypeKeyword.boolean
  else if s == "string" then some TypeKeyword.string
  else if s == "timestamp" then some TypeKeyword.timestamp
  else if s == "int8" then some TypeKeyword.int8
  else if s == "uint8" then some TypeKeyword.uint8
  else if s == "int16" then some TypeKeyword.int16
  else if s == "uint16" then some TypeKeyword.uint16
  else if s == "int32" then some TypeKeyword.int32
  else if s == "uint32" then some TypeKeyword.uint32
  else if s == "float32" then some TypeKeyword.float32
  else if s == "float64" then some TypeKeyword.float64
  else none

/-- The AST of compiled schema forms (ast.rs Node).  The ordered maps of
the Rust code (BTreeMap) are modelled as association lists. -/
inductive Node where
  | empty : Node
  | ref : String → Node
  | type : TypeKeyword → Node
  | enum : List String → Node
  | elements : Node → Node
  | properties : List (String × Node) → List (String × Node) → Bool → Node
  | values : Node → Node
  | discriminator : String → List (String × Node) → Node
  | nullable : Node → Node
deriving Repr

/-- A compiled schema: root node plus named definitions (ast.rs). -/
structure CompiledSchema where
  root : Node
  definitions : List (String × Node)
deriving Repr

/-- Key membership in an association list (BTreeMap::contains_key). -/
def hasName {α : Type} (l : List (String × α)) (k : String) : Bool :=
  l.any (fun p => p.1 == k)

/-- The compiler error taxonomy of compiler.rs. -/
inductive CompileError where
  | NotAnObject : CompileError
  | DefinitionsNotObject : CompileError
  | DefinitionsInNonRoot : CompileError
  | MultipleForms : List String → CompileError
  | RefNotString : CompileError
  | RefNotFound : String → CompileError
  | TypeNotString : CompileError
  | UnknownType : String → CompileError
  | InvalidEnum : CompileError
  | EnumDuplicates : CompileError
  | OverlappingProperties : String → CompileError
  | DiscriminatorNotString : CompileError
  | MissingMapping : CompileError
  | MappingNotProperties : CompileError
  | TagInVariant : String → CompileError
  | Other : String → CompileError
deriving Repr

/-- Form-keyword detection of compile_node (compiler.rs lines 86-108):
scan for the seven form keywords in source order, with properties and
optionalProperties collapsed into the single form name "properties". -/
def detectForms (kvs : List (String × Json)) : List String :=
  (if hasKey kvs ("ref") then [("ref" : String)] else []) ++
  (if hasKey kvs ("type") then [("type" : String)] else []) ++
  (if hasKey kvs ("enum") then [("enum" : String)] else []) ++
  (if hasKey kvs ("elements") then [("elements" : String)] else []) ++
  (if hasKey kvs ("values") then [("values" : String)] else []) ++
  (if hasKey kvs ("discriminator") then [("discriminator" : String)] else []) ++
  (if hasKey kvs ("properties") || hasKey kvs ("optionalProperties")
   then [("properties" : String)] else [])

/-- compile_ref of compiler.rs: the ref value must be a string naming a
registered definition. -/
def compileRef (kvs : List (String × Json)) (definitions : List (String × Node)) :
    Except CompileError Node :=
  match (getKey kvs ("ref")).bind Json.asStr with
  | none => Except.error CompileError.RefNotString
  | some name =>
    if hasName definitions name then Except.ok (Node.ref name)
    else Except.error (CompileError.RefNotFound name)

/-- compile_type of compiler.rs. -/
def compileType (kvs : List (String × Json)) : Except CompileError Node :=
  match (getKey kvs ("type")).bind Json.asStr with
  | none => Except.error CompileError.TypeNotString
  | some s =>
    match TypeKeyword.parse s with
    | none => Except.error (CompileError.UnknownType s)
    | some kw => Except.ok (Node.type kw)

/-- The element loop of compile_enum: every array entry must be a string
not seen before (the Rust code tracks a HashSet of seen values). -/
def enumStrings (seen : List String) : List Json → Except CompileError (List String)
  | [] => Except.ok []
  | v :: rest =>
    match Json.asStr v with
    | none => Except.error CompileError.InvalidEnum
    | some s =>
      if seen.contains s then Except.error CompileError.EnumDuplicates
      else
        match enumStrings (s :: seen) rest with
        | Except.error e => Except.error e
        | Except.ok ss => Except.ok (s :: ss)

/-- compile_enum of compiler.rs: non-empty array of distinct strings. -/
def compileEnum (kvs : List (String × Json)) : Except CompileError Node :=
  match (getKey kvs ("enum")).bind Json.asArray with
  | none => Except.error CompileError.InvalidEnum
  | some arr =>
    if arr.isEmpty then Except.error CompileError.InvalidEnum
    else
      match enumStrings [] arr with
      | Except.error e => Except.error e
      | Except.ok values => Except.ok (Node.enum values)

/-- The per-key loop of compile_properties over the "properties" object:
each value is compiled with the supplied recursion. -/
def compileFields (recurse : Json → Except CompileError Node) :
    List (String × Json) → Except CompileError (List (String × Node))
  | [] => Except.ok []
  | (k, v) :: rest =>
    match recurse v with
    | Except.error e => Except.error e
    | Except.ok n =>
      match compileFields recurse rest with
      | Except.error e => Except.error e
      | Except.ok ns => Except.ok ((k, n) :: ns)

/-- The per-key loop of compile_properties over "optionalProperties":
a key already required is rejected before its value is compiled. -/
def compileOptFields (recurse : Json → Except CompileError Node)
    (requiredKeys : List String) :
    List (String × Json) → Except CompileError (List (String × Node))
  | [] => Except.ok []
  | (k, v) :: rest =>
    if requiredKeys.contains k then
      Except.error (CompileError.OverlappingProperties k)
    else
      match recurse v with
      | Except.error e => Except.error e
      | Except.ok n =>
        match compileOptFields recurse requiredKeys rest with
        | Except.error e => Except.error e
        | Except.ok ns => Except.ok ((k, n) :: ns)

/-- The additional flag of compile_properties (compiler.rs lines 223-226):
obj.get("additionalProperties").and_then(as_bool).unwrap_or(false). -/
def propAdditional (kvs : List (String × Json)) : Bool :=
  ((getKey kvs ("additionalProperties")).bind Json.asBool).getD false

/-- compile_properties of compiler.rs. -/
def compileProperties (recurse : Json → Except CompileError Node)
    (kvs : List (String × Json)) : Except CompileError Node :=
  match (match getKey kvs ("properties") with
         | none => Except.ok []
         | some p =>
           match Json.asObj p with
           | none => Except.error CompileError.NotAnObject
           | some props => compileFields recurse props) with
  | Except.error e => Except.error e
  | Except.ok required =>
    match (match getKey kvs ("optionalProperties") with
           | none => Except.ok []
           | some p =>
             match Json.asObj p with
             | none => Except.error CompileError.NotAnObject
             | some opts => compileOptFields recurse (required.map Prod.fst) opts) with
    | Except.error e => Except.error e
    | Except.ok optional =>
      Except.ok (Node.properties required optional (propAdditional kvs))

/-- compile_elements of compiler.rs.  The Rust code unwraps the key, which
form detection has guaranteed present; the impossible branch is modelled
by the Other error. -/
def compileElements (recurse : Json → Except CompileError Node)
    (kvs : List (String × Json)) : Except CompileError Node :=
  match getKey kvs ("elements") with
  | none => Except.error (CompileError.Other ("unreachable"))
  | some inner =>
    match recurse inner with
    | Except.error e => Except.error e
    | Except.ok n => Except.ok (Node.elements n)

/-- compile_values of compiler.rs. -/
def compileValues (recurse : Json → Except CompileError Node)
    (kvs : List (String × Json)) : Except CompileError Node :=
  match getKey kvs ("values") with
  | none => Except.error (CompileError.Other ("unreachable"))
  | some inner =>
    match recurse inner with
    | Except.error e => Except.error e
    | Except.ok n => Except.ok (Node.values n)

/-- The mapping loop of compile_discriminator (compiler.rs lines 262-276):
each mapping value is compiled, must be a Properties node (a Nullable
wrapper or any other form is MappingNotProperties), and its required and
optional keys must not contain the tag (TagInVariant). -/
def compileMapping (recurse : Json → Except CompileError Node) (tag : String) :
    List (String × Json) → Except CompileError (List (String × Node))
  | [] => Except.ok []
  | (k, v) :: rest =>
    match recurse v with
    | Except.error e => Except.error e
    | Except.ok n =>
      match n with
      | Node.properties req opt add =>
        if hasName req tag || hasName opt tag then
          Except.error (CompileError.TagInVariant tag)
        else
          match compileMapping recurse tag rest with
          | Except.error e => Except.error e
          | Except.ok ns => Except.ok ((k, Node.properties req opt add) :: ns)
      | _ => Except.error CompileError.MappingNotProperties

/-- compile_discriminator of compiler.rs. -/
def compileDiscriminator (recurse : Json → Except CompileError Node)
    (kvs : List (String × Json)) : Except CompileError Node :=
  match (getKey kvs ("discriminator")).bind Json.asStr with
  | none => Except.error CompileError.DiscriminatorNotString
  | some tag =>
    match getKey kvs ("mapping") with
    | none => Except.error CompileError.MissingMapping
    | some mv =>
      match Json.asObj mv with
      | none => Except.error CompileError.MissingMapping
      | some mkvs =>
        match compileMapping recurse tag mkvs with
        | Except.error e => Except.error e
        | Except.ok mapping => Except.ok (Node.discriminator tag mapping)

/-- compile_node of compiler.rs (lines 79-138): form detection, dispatch,
then the nullable wrapper.  The is_sub flag of the Rust signature is
unused there and therefore not modelled.  Fuel bounds the recursion
depth; the Rust original recurses structurally on the JSON value. -/
def compileNode (fuel : Nat) (definitions : List (String × Node)) (j : Json) :
    Except CompileError Node :=
  match fuel with
  | 0 => Except.error (CompileError.Other ("fuel"))
  | Nat.succ fuel =>
    match Json.asObj j with
    | none => Except.error CompileError.NotAnObject
    | some kvs =>
      let forms := detectForms kvs
      if 1 < forms.length then Except.error (CompileError.MultipleForms forms)
      else
        let result :=
          match forms.head? with
          | none => Except.ok Node.empty
          | some f =>
            if f == "ref" then compileRef kvs definitions
            else if f == "type" then compileType kvs
            else if f == "enum" then compileEnum kvs
            else if f == "elements" then
              compileElements (fun v => compileNode fuel definitions v) kvs
            else if f == "properties" then
              compileProperties (fun v => compileNode fuel definitions v) kvs
            else if f == "values" then
              compileValues (fun v => compileNode fuel definitions v) kvs
            else if f == "discriminator" then
              compileDiscriminator (fun v => compileNode fuel definitions v) kvs
            else Except.error (CompileError.Other ("unreachable"))
        match result with
        | Except.error e => Except.error e
        | Except.ok node =>
          match getKey kvs ("nullable") with
          | some (Json.bool true) => Except.ok (Node.nullable node)
          | _ => Except.ok node

/-- Pass 1 of compile (compiler.rs lines 53-62): every definition key is
registered with a placeholder Empty node. -/
def placeholders (dkvs : List (String × Json)) : List (String × Node) :=
  dkvs.map (fun p => (p.1, Node.empty))

/-- BTreeMap::insert for a key already present: the value is replaced in
place (every pass-2 insertion targets a key registered in pass 1). -/
def insertReplace (defs : List (String × Node)) (key : String) (n : Node) :
    List (String × Node) :=
  defs.map (fun p => if p.1 == key then (p.1, n) else p)

/-- Pass 2 of compile (compiler.rs lines 64-71): each definition body is
compiled against the current definitions map and its placeholder is
replaced by the result. -/
def pass2 (fuel : Nat) (dkvs : List (String × Json)) :
    List String → List (String × Node) → Except CompileError (List (String × Node))
  | [], defs => Except.ok defs
  | key :: rest, defs =>
    match getKey dkvs key with
    | none => Except.error (CompileError.Other ("unreachable"))
    | some body =>
      match compileNode fuel defs body with
      | Except.error e => Except.error e
      | Except.ok node => pass2 fuel dkvs rest (insertReplace defs key node)

/-- compile of compiler.rs (lines 47-77), with explicit fuel. -/
def compileTop (fuel : Nat) (j : Json) : Except CompileError CompiledSchema :=
  match Json.asObj j with
  | none => Except.error CompileError.NotAnObject
  | some kvs =>
    match getKey kvs ("definitions") with
    | none =>
      match compileNode fuel [] j with
      | Except.error e => Except.error e
      | Except.ok root => Except.ok (CompiledSchema.mk root [])
    | some dv =>
      match Json.asObj dv with
      | none => Except.error CompileError.DefinitionsNotObject
      | some dkvs =>
        match pass2 fuel dkvs (dkvs.map Prod.fst) (placeholders dkvs) with
        | Except.error e => Except.error e
        | Except.ok defs =>
          match compileNode fuel defs j with
          | Except.error e => Except.error e
          | Except.ok root => Except.ok (CompiledSchema.mk root defs)

mutual

/-- Total number of JSON constructors in a value; used as fuel for the
public entry point.  It strictly dominates the nesting depth. -/
def jsonFuel : Json → Nat
  | Json.null => 1
  | Json.bool _ => 1
  | Json.num _ => 1
  | Json.str _ => 1
  | Json.arr xs => 1 + jsonFuelList xs
  | Json.obj kvs => 1 + jsonFuelObj kvs

/-- Fuel of a list of JSON values. -/
def jsonFuelList : List Json → Nat
  | [] => 0
  | x :: xs => jsonFuel x + jsonFuelList xs

/-- Fuel of a JSON object body. -/
def jsonFuelObj : List (String × Json) → Nat
  | [] => 0
  | (_, v) :: ps => jsonFuel v + jsonFuelObj ps

end

/-- The public compile entry point; jsonFuel dominates the nesting depth
of the JSON value, so the fuel never runs out on the paths the Rust code
takes. -/
def compile (j : Json) : Except CompileError CompiledSchema :=
  compileTop (jsonFuel j) j

/-- Model of matches!(inner, Node::Empty) used by emit_node for the
nullable short-circuit. -/
def nodeIsEmpty : Node → Bool
  | Node.empty => true
  | _ => false

namespace EmitJs

/-- Fixed two-space indentation of the JS writer, repeated depth times. -/
def indentStr (depth : Nat) : String :=
  String.join (List.replicate depth ("  "))

/-- The JS CodeWriter of emit_js/writer.rs: an indentation-aware string
builder.  The depth is a usize in the Rust code; Nat subtraction models
its saturating_sub exactly. -/
structure CodeWriter where
  buf : String
  depth : Nat
deriving Repr

/-- CodeWriter::new. -/
def CodeWriter.new : CodeWriter := CodeWriter.mk ("") 0

/-- CodeWriter::line: write a line at the current indentation level. -/
def CodeWriter.line (w : CodeWriter) (text : String) : CodeWriter :=
  CodeWriter.mk (w.buf ++ indentStr w.depth ++ text ++ "\n") w.depth

/-- CodeWriter::open (named openB since open is a Lean keyword): write
the text followed by an opening brace and increase the indent. -/
def CodeWriter.openB (w : CodeWriter) (text : String) : CodeWriter :=
  CodeWriter.mk (w.buf ++ indentStr w.depth ++ text ++ " \x7b\n") (w.depth + 1)

/-- CodeWriter::close: saturating-decrease the indent, then write the
closing brace at the new level. -/
def CodeWriter.close (w : CodeWriter) : CodeWriter :=
  CodeWriter.mk (w.buf ++ indentStr (w.depth - 1) ++ "\x7d\n") (w.depth - 1)

/-- CodeWriter::close_open: saturating-decrease the indent, write the
continuation between braces, and re-increase the indent. -/
def CodeWriter.close_open (w : CodeWriter) (text : String) : CodeWriter :=
  CodeWriter.mk (w.buf ++ indentStr (w.depth - 1) ++ "\x7d " ++ text ++ " \x7b\n")
    ((w.depth - 1) + 1)

/-- CodeWriter::finish. -/
def CodeWriter.finish (w : CodeWriter) : String := w.buf

/-- Per-character escapes of escape_js (emit_js/writer.rs). -/
def escJsChar (c : Char) : String :=
  match c with
  | '\\' => "\\\\"
  | '"' => "\\\""
  | '\n' => "\\n"
  | '\r' => "\\r"
  | _ => String.mk [c]

/-- escape_js: escape a string for a JS double-quoted literal. -/
def escape_js (s : String) : String :=
  String.join (s.data.map escJsChar)

/-- The JS EmitContext of emit_js/context.rs. -/
structure EmitContext where
  val : String
  err : String
  ip : String
  sp : String
  depth : Nat
deriving Repr

/-- EmitContext::root, the context of the validate() entry point. -/
def EmitContext.root : EmitContext :=
  EmitContext.mk ("instance") ("e") ("\"\"") ("\"\"") 0

/-- EmitContext::definition, the context of a definition function body. -/
def EmitContext.definition : EmitContext :=
  EmitContext.mk ("v") ("e") ("p") ("sp") 0

/-- EmitContext::idx_var. -/
def EmitContext.idx_var (ctx : EmitContext) : String :=
  if ctx.depth == 0 then "i" else "i" ++ toString ctx.depth

/-- EmitContext::key_var. -/
def EmitContext.key_var (ctx : EmitContext) : String :=
  if ctx.depth == 0 then "k" else "k" ++ toString ctx.depth

/-- EmitContext::required_prop: descend into a required property. -/
def EmitContext.required_prop (ctx : EmitContext) (key : String) : EmitContext :=
  EmitContext.mk (ctx.val ++ "[\"" ++ key ++ "\"]") ctx.err
    (ctx.ip ++ " + \"/" ++ key ++ "\"")
    (ctx.sp ++ " + \"/properties/" ++ key ++ "\"") ctx.depth

/-- EmitContext::optional_prop: descend into an optional property. -/
def EmitContext.optional_prop (ctx : EmitContext) (key : String) : EmitContext :=
  EmitContext.mk (ctx.val ++ "[\"" ++ key ++ "\"]") ctx.err
    (ctx.ip ++ " + \"/" ++ key ++ "\"")
    (ctx.sp ++ " + \"/optionalProperties/" ++ key ++ "\"") ctx.depth

/-- EmitContext::element: descend into an array element. -/
def EmitContext.element (ctx : EmitContext) (idxVar : String) : EmitContext :=
  EmitContext.mk (ctx.val ++ "[" ++ idxVar ++ "]") ctx.err
    (ctx.ip ++ " + \"/\" + " ++ idxVar)
    (ctx.sp ++ " + \"/elements\"") (ctx.depth + 1)

/-- EmitContext::values_entry: descend into a values entry. -/
def EmitContext.values_entry (ctx : EmitContext) (keyVar : String) : EmitContext :=
  EmitContext.mk (ctx.val ++ "[" ++ keyVar ++ "]") ctx.err
    (ctx.ip ++ " + \"/\" + " ++ keyVar)
    (ctx.sp ++ " + \"/values\"") (ctx.depth + 1)

/-- EmitContext::discrim_variant: schema path for a discriminator
variant; val and ip are unchanged. -/
def EmitContext.discrim_variant (ctx : EmitContext) (variantKey : String) : EmitContext :=
  EmitContext.mk ctx.val ctx.err ctx.ip
    (ctx.sp ++ " + \"/mapping/" ++ variantKey ++ "\"") ctx.depth

/-- EmitContext::push_error. -/
def EmitContext.push_error (ctx : EmitContext) (spSuffix : String) : String :=
  let spExpr := if spSuffix.isEmpty then ctx.sp
                else ctx.sp ++ " + \"" ++ spSuffix ++ "\""
  ctx.err ++ ".push(\x7binstancePath: " ++ ctx.ip ++ ", schemaPath: " ++ spExpr ++ "\x7d);"

/-- EmitContext::push_error_at. -/
def EmitContext.push_error_at (ctx : EmitContext) (ipSuffix spSuffix : String) : String :=
  let ipExpr := if ipSuffix.isEmpty then ctx.ip
                else ctx.ip ++ " + \"" ++ ipSuffix ++ "\""
  let spExpr := if spSuffix.isEmpty then ctx.sp
                else ctx.sp ++ " + \"" ++ spSuffix ++ "\""
  ctx.err ++ ".push(\x7binstancePath: " ++ ipExpr ++ ", schemaPath: " ++ spExpr ++ "\x7d);"

/-- The integer branch of type_condition (emit_js/types.rs int_cond). -/
def int_cond (val : String) (min max : Int) : String :=
  "typeof " ++ val ++ " !== \"number\" || !Number.isInteger(" ++ val ++ ") || " ++
    val ++ " < " ++ toString min ++ " || " ++ val ++ " > " ++ toString max

/-- type_condition of emit_js/types.rs: a JS expression that is true when
val FAILS the type check. -/
def type_condition (kw : TypeKeyword) (val : String) : String :=
  match kw with
  | TypeKeyword.boolean => "typeof " ++ val ++ " !== \"boolean\""
  | TypeKeyword.string => "typeof " ++ val ++ " !== \"string\""
  | TypeKeyword.timestamp =>
    "typeof " ++ val ++ " !== \"string\" || " ++
      "!/^\\d\x7b4\x7d-\\d\x7b2\x7d-\\d\x7b2\x7d[Tt]\\d\x7b2\x7d:\\d\x7b2\x7d:(\\d\x7b2\x7d|60)(\\.\\d+)?([Zz]|[+-]\\d\x7b2\x7d:\\d\x7b2\x7d)$/.test(" ++
      val ++ ") || Number.isNaN(Date.parse(" ++ val ++ ".replace(/:60/, \":59\")))"
  | TypeKeyword.float32 =>
    "typeof " ++ val ++ " !== \"number\" || !Number.isFinite(" ++ val ++ ")"
  | TypeKeyword.float64 =>
    "typeof " ++ val ++ " !== \"number\" || !Number.isFinite(" ++ val ++ ")"
  | TypeKeyword.int8 => int_cond val (-128) 127
  | TypeKeyword.uint8 => int_cond val 0 255
  | TypeKeyword.int16 => int_cond val (-32768) 32767
  | TypeKeyword.uint16 => int_cond val 0 65535
  | TypeKeyword.int32 => int_cond val (-2147483648) 2147483647
  | TypeKeyword.uint32 => int_cond val 0 4294967295

/-- emit_empty of emit_js/nodes.rs: no code emitted. -/
def emit_empty (w : CodeWriter) (_ctx : EmitContext) : CodeWriter := w

/-- emit_type of emit_js/nodes.rs. -/
def emit_type (w : CodeWriter) (ctx : EmitContext) (kw : TypeKeyword) : CodeWriter :=
  w.line ("if (" ++ type_condition kw ctx.val ++ ") " ++ ctx.push_error ("/type"))

/-- emit_enum of emit_js/nodes.rs. -/
def emit_enum (w : CodeWriter) (ctx : EmitContext) (values : List String) : CodeWriter :=
  let items := values.map (fun v => "\"" ++ escape_js v ++ "\"")
  let arr := String.intercalate (",") items
  w.line ("if (typeof " ++ ctx.val ++ " !== \"string\" || ![" ++ arr ++ "].includes(" ++
    ctx.val ++ ")) " ++ ctx.push_error ("/enum"))

/-- def_fn_name of emit_js/nodes.rs: sanitize a definition name into a JS
function name.  Char.isAlphanum models char::is_alphanumeric (they agree
on ASCII names). -/
def def_fn_name (name : String) : String :=
  "validate_" ++ String.mk (name.data.map (fun c =>
    if c.isAlphanum || c == '_' then c else '_'))

/-- emit_ref of emit_js/nodes.rs: call the generated definition function
with the caller's val, err and ip, and the absolute schema path of the
definition as sp. -/
def emit_ref (w : CodeWriter) (ctx : EmitContext) (defName : String) : CodeWriter :=
  w.line (def_fn_name defName ++ "(" ++ ctx.val ++ ", " ++ ctx.err ++ ", " ++ ctx.ip ++
    ", \"/definitions/" ++ escape_js defName ++ "\");")

/-- emit_nullable of emit_js/nodes.rs: nothing when the inner form is
Empty, otherwise the inner emission wrapped in a null check. -/
def emit_nullable (w : CodeWriter) (ctx : EmitContext) (isInnerEmpty : Bool)
    (emitInner : CodeWriter → EmitContext → CodeWriter) : CodeWriter :=
  if isInnerEmpty then w
  else (emitInner (w.openB ("if (" ++ ctx.val ++ " !== null)")) ctx).close

/-- emit_elements of emit_js/nodes.rs: array guard plus indexed loop. -/
def emit_elements (w : CodeWriter) (ctx : EmitContext)
    (emitInner : CodeWriter → EmitContext → CodeWriter) : CodeWriter :=
  let errStmt := ctx.push_error ("/elements")
  let w := w.openB ("if (!Array.isArray(" ++ ctx.val ++ "))")
  let w := w.line errStmt
  let w := w.close_open ("else")
  let idx := ctx.idx_var
  let w := w.openB ("for (let " ++ idx ++ " = 0; " ++ idx ++ " < " ++ ctx.val ++
    ".length; " ++ idx ++ "++)")
  let w := emitInner w (ctx.element idx)
  let w := w.close
  w.close

/-- emit_values of emit_js/nodes.rs: object guard plus for-in loop. -/
def emit_values (w : CodeWriter) (ctx : EmitContext)
    (emitInner : CodeWriter → EmitContext → CodeWriter) : CodeWriter :=
  let errStmt := ctx.push_error ("/values")
  let w := w.openB ("if (" ++ ctx.val ++ " === null || typeof " ++ ctx.val ++
    " !== \"object\" || Array.isArray(" ++ ctx.val ++ "))")
  let w := w.line errStmt
  let w := w.close_open ("else")
  let keyVar := ctx.key_var
  let w := w.openB ("for (const " ++ keyVar ++ " in " ++ ctx.val ++ ")")
  let w := emitInner w (ctx.values_entry keyVar)
  let w := w.close
  w.close

/-- emit_properties_node of emit_js/emit.rs: object guard, required and
optional property checks, then the additional-property rejection loop. -/
def emit_properties_node (emitChild : CodeWriter → EmitContext → Node → CodeWriter)
    (w : CodeWriter) (ctx : EmitContext)
    (required optional : List (String × Node)) (additional : Bool)
    (discrimTag : Option String) : CodeWriter :=
  let guardSp := if required.isEmpty then "/optionalProperties" else "/properties"
  let w := w.openB ("if (" ++ ctx.val ++ " === null || typeof " ++ ctx.val ++
    " !== \"object\" || Array.isArray(" ++ ctx.val ++ "))")
  let w := w.line (ctx.push_error guardSp)
  let w := w.close_open ("else")
  let w := required.foldl (fun w p =>
    let escaped := escape_js p.1
    let w := w.line ("if (!(\"" ++ escaped ++ "\" in " ++ ctx.val ++ ")) " ++
      ctx.push_error ("/properties/" ++ escaped))
    let w := w.openB ("else")
    let w := emitChild w (ctx.required_prop p.1) p.2
    w.close) w
  let w := optional.foldl (fun w p =>
    let escaped := escape_js p.1
    let w := w.openB ("if (\"" ++ escaped ++ "\" in " ++ ctx.val ++ ")")
    let w := emitChild w (ctx.optional_prop p.1) p.2
    w.close) w
  let w :=
    if additional then w
    else
      let w := w.openB ("for (const k in " ++ ctx.val ++ ")")
      let known := (match discrimTag with
                    | some t => [t]
                    | none => []) ++ required.map Prod.fst ++ optional.map Prod.fst
      let w :=
        if known.isEmpty then
          w.line (ctx.err ++ ".push(\x7binstancePath: " ++ ctx.ip ++
            " + \"/\" + k, schemaPath: " ++ ctx.sp ++ "\x7d);")
        else
          let conds := known.map (fun k => "k !== \"" ++ escape_js k ++ "\"")
          w.line ("if (" ++ String.intercalate (" && ") conds ++ ") " ++ ctx.err ++
            ".push(\x7binstancePath: " ++ ctx.ip ++ " + \"/\" + k, schemaPath: " ++
            ctx.sp ++ "\x7d);")
      w.close
  w.close

/-- emit_discriminator_node of emit_js/emit.rs: the five-step ladder. -/
def emit_discriminator_node
    (emitChild : CodeWriter → EmitContext → Node → Option String → CodeWriter)
    (w : CodeWriter) (ctx : EmitContext) (tag : String)
    (mapping : List (String × Node)) : CodeWriter :=
  let escapedTag := escape_js tag
  let w := w.openB ("if (" ++ ctx.val ++ " === null || typeof " ++ ctx.val ++
    " !== \"object\" || Array.isArray(" ++ ctx.val ++ "))")
  let w := w.line (ctx.push_error ("/discriminator"))
  let w := w.close_open ("else if (!(\"" ++ escapedTag ++ "\" in " ++ ctx.val ++ "))")
  let w := w.line (ctx.push_error ("/discriminator"))
  let w := w.close_open ("else if (typeof " ++ ctx.val ++ "[\"" ++ escapedTag ++
    "\"] !== \"string\")")
  let w := w.line (ctx.push_error_at ("/" ++ escapedTag) ("/discriminator"))
  let w := mapping.foldl (fun w p =>
    let escapedVariant := escape_js p.1
    let w := w.close_open ("else if (" ++ ctx.val ++ "[\"" ++ escapedTag ++
      "\"] === \"" ++ escapedVariant ++ "\")")
    emitChild w (ctx.discrim_variant p.1) p.2 (some tag)) w
  let w := w.close_open ("else")
  let w := w.line (ctx.push_error_at ("/" ++ escapedTag) ("/mapping"))
  w.close

/-- emit_node of emit_js/emit.rs: the recursive dispatcher.  Fuel bounds
the recursion depth; the Rust original recurses structurally on the
node. -/
def emit_node (fuel : Nat) (w : CodeWriter) (ctx : EmitContext) (n : Node)
    (discrimTag : Option String) : CodeWriter :=
  match fuel with
  | 0 => w
  | Nat.succ fuel =>
    match n with
    | Node.empty => emit_empty w ctx
    | Node.type kw => emit_type w ctx kw
    | Node.enum vs => emit_enum w ctx vs
    | Node.ref name => emit_ref w ctx name
    | Node.nullable inner =>
      emit_nullable w ctx (nodeIsEmpty inner) (fun w c => emit_node fuel w c inner none)
    | Node.elements s => emit_elements w ctx (fun w c => emit_node fuel w c s none)
    | Node.values s => emit_values w ctx (fun w c => emit_node fuel w c s none)
    | Node.properties req opt add =>
      emit_properties_node (fun w c m => emit_node fuel w c m none) w ctx req opt add
        discrimTag
    | Node.discriminator tag mapping =>
      emit_discriminator_node (fun w c m t => emit_node fuel w c m t) w ctx tag mapping

/-- emit of emit_js/emit.rs: one function per definition, then the
exported validate entry point. -/
def emit (fuel : Nat) (schema : CompiledSchema) : String :=
  let w := CodeWriter.new
  let w := schema.definitions.foldl (fun w p =>
    let w := w.openB ("function " ++ def_fn_name p.1 ++ "(v, e, p, sp)")
    let w := emit_node fuel w EmitContext.definition p.2 none
    let w := w.close
    w.line ("")) w
  let w := w.openB ("export function validate(instance)")
  let w := w.line ("const e = [];")
  let w := emit_node fuel w EmitContext.root schema.root none
  let w := w.line ("return e;")
  let w := w.close
  w.finish

end EmitJs

namespace EmitLua

/-- Per-character escapes of escape_lua (emit_lua/writer.rs). -/
def escLuaChar (c : Char) : String :=
  match c with
  | '\\' => "\\\\"
  | '"' => "\\\""
  | '\n' => "\\n"
  | '\r' => "\\r"
  | '\t' => "\\t"
  | _ => String.mk [c]

/-- escape_lua: escape a string for a Lua double-quoted literal. -/
def escape_lua (s : String) : String :=
  String.join (s.data.map escLuaChar)

/-- The Lua EmitContext of emit_lua/context.rs. -/
structure EmitContext where
  val : String
  err : String
  ip : String
  sp : String
  depth : Nat
deriving Repr

/-- EmitContext::root of the Lua back-end. -/
def EmitContext.root : EmitContext :=
  EmitContext.mk ("instance") ("e") ("\"\"") ("\"\"") 0

/-- EmitContext::definition of the Lua back-end. -/
def EmitContext.definition : EmitContext :=
  EmitContext.mk ("v") ("e") ("p") ("sp") 0

/-- EmitContext::idx_var of the Lua back-end. -/
def EmitContext.idx_var (ctx : EmitContext) : String :=
  if ctx.depth == 0 then "i" else "i" ++ toString ctx.depth

/-- EmitContext::key_var of the Lua back-end. -/
def EmitContext.key_var (ctx : EmitContext) : String :=
  if ctx.depth == 0 then "k" else "k" ++ toString ctx.depth

/-- EmitContext::required_prop of emit_lua/context.rs: the key is passed
through escape_lua in all three expressions. -/
def EmitContext.required_prop (ctx : EmitContext) (key : String) : EmitContext :=
  EmitContext.mk (ctx.val ++ "[\"" ++ escape_lua key ++ "\"]") ctx.err
    (ctx.ip ++ " .. \"/" ++ escape_lua key ++ "\"")
    (ctx.sp ++ " .. \"/properties/" ++ escape_lua key ++ "\"") ctx.depth

/-- EmitContext::optional_prop of emit_lua/context.rs. -/
def EmitContext.optional_prop (ctx : EmitContext) (key : String) : EmitContext :=
  EmitContext.mk (ctx.val ++ "[\"" ++ escape_lua key ++ "\"]") ctx.err
    (ctx.ip ++ " .. \"/" ++ escape_lua key ++ "\"")
    (ctx.sp ++ " .. \"/optionalProperties/" ++ escape_lua key ++ "\"") ctx.depth

/-- EmitContext::element of emit_lua/context.rs: the emitted instance
path subtracts 1 from the one-based Lua loop index. -/
def EmitContext.element (ctx : EmitContext) (idxVar : String) : EmitContext :=
  EmitContext.mk (ctx.val ++ "[" ++ idxVar ++ "]") ctx.err
    (ctx.ip ++ " .. \"/\" .. (" ++ idxVar ++ " - 1)")
    (ctx.sp ++ " .. \"/elements\"") (ctx.depth + 1)

/-- EmitContext::values_entry of emit_lua/context.rs. -/
def EmitContext.values_entry (ctx : EmitContext) (keyVar : String) : EmitContext :=
  EmitContext.mk (ctx.val ++ "[" ++ keyVar ++ "]") ctx.err
    (ctx.ip ++ " .. \"/\" .. " ++ keyVar)
    (ctx.sp ++ " .. \"/values\"") (ctx.depth + 1)

/-- EmitContext::discrim_variant of emit_lua/context.rs. -/
def EmitContext.discrim_variant (ctx : EmitContext) (variantKey : String) : EmitContext :=
  EmitContext.mk ctx.val ctx.err ctx.ip
    (ctx.sp ++ " .. \"/mapping/" ++ escape_lua variantKey ++ "\"") ctx.depth

/-- EmitContext::push_error of emit_lua/context.rs. -/
def EmitContext.push_error (ctx : EmitContext) (spSuffix : String) : String :=
  let spExpr := if spSuffix.isEmpty then ctx.sp
                else ctx.sp ++ " .. \"" ++ escape_lua spSuffix ++ "\""
  "table.insert(" ++ ctx.err ++ ", \x7binstancePath = " ++ ctx.ip ++
    ", schemaPath = " ++ spExpr ++ "\x7d)"

/-- EmitContext::push_error_at of emit_lua/context.rs. -/
def EmitContext.push_error_at (ctx : EmitContext) (ipSuffix spSuffix : String) : String :=
  let ipExpr := if ipSuffix.isEmpty then ctx.ip
                else ctx.ip ++ " .. \"" ++ escape_lua ipSuffix ++ "\""
  let spExpr := if spSuffix.isEmpty then ctx.sp
                else ctx.sp ++ " .. \"" ++ escape_lua spSuffix ++ "\""
  "table.insert(" ++ ctx.err ++ ", \x7binstancePath = " ++ ipExpr ++
    ", schemaPath = " ++ spExpr ++ "\x7d)"

/-- EmitContext::push_error_dynamic of emit_lua/context.rs. -/
def EmitContext.push_error_dynamic (ctx : EmitContext) (ipExprSuffix spSuffix : String) :
    String :=
  let ipExpr := ctx.ip ++ " .. " ++ ipExprSuffix
  let spExpr := if spSuffix.isEmpty then ctx.sp
                else ctx.sp ++ " .. \"" ++ escape_lua spSuffix ++ "\""
  "table.insert(" ++ ctx.err ++ ", \x7binstancePath = " ++ ipExpr ++
    ", schemaPath = " ++ spExpr ++ "\x7d)"

end EmitLua

namespace EmitPy

/-- Fixed four-space indentation of the Python writer (PEP 8). -/
def indentStr (depth : Nat) : String :=
  String.join (List.replicate depth ("    "))

/-- The Python CodeWriter of emit_py/writer.rs.  Python blocks close by
dedenting, so the writer has dedent instead of a brace-writing close. -/
structure CodeWriter where
  buf : String
  depth : Nat
deriving Repr

/-- CodeWriter::new of the Python writer. -/
def CodeWriter.new : CodeWriter := CodeWriter.mk ("") 0

/-- CodeWriter::line of the Python writer. -/
def CodeWriter.line (w : CodeWriter) (text : String) : CodeWriter :=
  CodeWriter.mk (w.buf ++ indentStr w.depth ++ text ++ "\n") w.depth

/-- CodeWriter::open of the Python writer: write the text followed by a
colon and increase the indent. -/
def CodeWriter.openB (w : CodeWriter) (text : String) : CodeWriter :=
  CodeWriter.mk (w.buf ++ indentStr w.depth ++ text ++ ":\n") (w.depth + 1)

/-- CodeWriter::dedent of the Python writer (emit_py/writer.rs lines
40-42): saturating-decrease the indent; nothing is written. -/
def CodeWriter.dedent (w : CodeWriter) : CodeWriter :=
  CodeWriter.mk w.buf (w.depth - 1)

/-- CodeWriter::close_open of the Python writer: dedent, write the
continuation with a colon, and re-indent. -/
def CodeWriter.close_open (w : CodeWriter) (text : String) : CodeWriter :=
  CodeWriter.mk (w.buf ++ indentStr (w.depth - 1) ++ text ++ ":\n") ((w.depth - 1) + 1)

/-- CodeWriter::finish of the Python writer. -/
def CodeWriter.finish (w : CodeWriter) : String := w.buf

/-- Per-character escapes of escape_py (emit_py/writer.rs). -/
def escPyChar (c : Char) : String :=
  match c with
  | '\\' => "\\\\"
  | '"' => "\\\""
  | '\n' => "\\n"
  | '\r' => "\\r"
  | '\t' => "\\t"
  | _ => String.mk [c]

/-- escape_py: escape a string for a Python double-quoted literal. -/
def escape_py (s : String) : String :=
  String.join (s.data.map escPyChar)

end EmitPy

namespace EmitRs

/-- The integer branch of type_condition (emit_rs/types.rs int_cond). -/
def int_cond (val : String) (min max : Int) : String :=
  "!" ++ val ++ ".as_f64().map_or(false, |n| n.fract() == 0.0 && n >= " ++
    toString min ++ "_f64 && n <= " ++ toString max ++ "_f64)"

/-- type_condition of emit_rs/types.rs: a Rust expression over a
serde_json::Value that is true when val FAILS the type check. -/
def type_condition (kw : TypeKeyword) (val : String) : String :=
  match kw with
  | TypeKeyword.boolean => "!" ++ val ++ ".is_boolean()"
  | TypeKeyword.string => "!" ++ val ++ ".is_string()"
  | TypeKeyword.timestamp => "!" ++ val ++ ".as_str().map_or(false, |s| is_rfc3339(s))"
  | TypeKeyword.float32 => "!" ++ val ++ ".as_f64().map_or(false, |n| n.is_finite())"
  | TypeKeyword.float64 => "!" ++ val ++ ".as_f64().map_or(false, |n| n.is_finite())"
  | TypeKeyword.int8 => int_cond val (-128) 127
  | TypeKeyword.uint8 => int_cond val 0 255
  | TypeKeyword.int16 => int_cond val (-32768) 32767
  | TypeKeyword.uint16 => int_cond val 0 65535
  | TypeKeyword.int32 => int_cond val (-2147483648) 2147483647
  | TypeKeyword.uint32 => int_cond val 0 4294967295

end EmitRs

/-- Strip one Nullable wrapper; compile_node applies at most one at each
schema object. -/
def unwrapNullable : Node → Node
  | Node.nullable inner => inner
  | n => n

/-- The form name of an AST variant, for stating form-detection claims. -/
def formOf : Node → String
  | Node.empty => "empty"
  | Node.ref _ => "ref"
  | Node.type _ => "type"
  | Node.enum _ => "enum"
  | Node.elements _ => "elements"
  | Node.properties _ _ _ => "properties"
  | Node.values _ => "values"
  | Node.discriminator _ _ => "discriminator"
  | Node.nullable _ => "nullable"

/-- A sequence of pass-2 style insertions applied to a definitions map;
every intermediate map of pass2 has this shape. -/
def applyUpdates (defs : List (String × Node)) (updates : List (String × Node)) :
    List (String × Node) :=
  updates.foldl (fun d p => insertReplace d p.1 p.2) defs

/-- Remove one key from a JSON object, for stating that a key's value is
irrelevant to compilation. -/
def eraseKey (kvs : List (String × Json)) (k : String) : List (String × Json) :=
  kvs.filter (fun p => !(p.1 == k))

/-- C1: the compiler accepts a schema whose nested (non-root) sub-schema
object carries a definitions key and silently ignores that key: the
schema compiles to Elements(Empty) with no definitions, instead of the
DefinitionsInNonRoot error the specification requires (compile_node
never consults its is_sub flag, and CompileError::DefinitionsInNonRoot
is never constructed anywhere in compiler.rs). -/
theorem c1_nested_definitions_not_rejected :
    compile (Json.obj [("elements",
        Json.obj [("definitions", Json.obj [("x", Json.obj [])])])]) =
      Except.ok (CompiledSchema.mk (Node.elements Node.empty) []) := by
  rfl

/-- C2 counterexample: in the JS emission context the instance-path
expression built by required_prop embeds the raw key, not escape_js of
the key; on the key a-quote-b the two disagree. -/
theorem c2_counterexample_js_key_not_escaped :
    ¬ ((EmitJs.EmitContext.root.required_prop ("a\"b")).ip =
        EmitJs.EmitContext.root.ip ++ " + \"/" ++ EmitJs.escape_js ("a\"b") ++ "\"") := by
  decide

/-- C2 (amended): the Lua descent operators pass the key through
escape_lua in the value, instance-path and schema-path expressions, with
required_prop using /properties/ and optional_prop /optionalProperties/;
the JS descent operators build the same shapes but interpolate the raw
key with no escaping.  err and depth are unchanged in both targets. -/
theorem c2_descent_operators :
    ∀ (ctxj : EmitJs.EmitContext) (ctxl : EmitLua.EmitContext) (k : String),
      (EmitJs.EmitContext.required_prop ctxj k =
        EmitJs.EmitContext.mk (ctxj.val ++ "[\"" ++ k ++ "\"]") ctxj.err
          (ctxj.ip ++ " + \"/" ++ k ++ "\"")
          (ctxj.sp ++ " + \"/properties/" ++ k ++ "\"") ctxj.depth) ∧
      (EmitJs.EmitContext.optional_prop ctxj k =
        EmitJs.EmitContext.mk (ctxj.val ++ "[\"" ++ k ++ "\"]") ctxj.err
          (ctxj.ip ++ " + \"/" ++ k ++ "\"")
          (ctxj.sp ++ " + \"/optionalProperties/" ++ k ++ "\"") ctxj.depth) ∧
      (EmitLua.EmitContext.required_prop ctxl k =
        EmitLua.EmitContext.mk (ctxl.val ++ "[\"" ++ EmitLua.escape_lua k ++ "\"]") ctxl.err
          (ctxl.ip ++ " .. \"/" ++ EmitLua.escape_lua k ++ "\"")
          (ctxl.sp ++ " .. \"/properties/" ++ EmitLua.escape_lua k ++ "\"") ctxl.depth) ∧
      (EmitLua.EmitContext.optional_prop ctxl k =
        EmitLua.EmitContext.mk (ctxl.val ++ "[\"" ++ EmitLua.escape_lua k ++ "\"]") ctxl.err
          (ctxl.ip ++ " .. \"/" ++ EmitLua.escape_lua k ++ "\"")
          (ctxl.sp ++ " .. \"/optionalProperties/" ++ EmitLua.escape_lua k ++ "\"") ctxl.depth) := by
  intro ctxj ctxl k
  exact ⟨rfl, rfl, rfl, rfl⟩

/-- C4: emit_ref writes exactly one line calling the generated definition
function with the caller's value, error accumulator and instance path
unchanged and the absolute schema path /definitions/(escaped name) as the
sp argument; the output is independent of the caller's sp expression. -/
theorem c4_emit_ref_absolute_schema_path :
    ∀ (w : EmitJs.CodeWriter) (v e i s1 s2 : String) (d : Nat) (name : String),
      EmitJs.emit_ref w (EmitJs.EmitContext.mk v e i s1 d) name =
        EmitJs.emit_ref w (EmitJs.EmitContext.mk v e i s2 d) name ∧
      EmitJs.emit_ref w (EmitJs.EmitContext.mk v e i s1 d) name =
        EmitJs.CodeWriter.line w (EmitJs.def_fn_name name ++ "(" ++ v ++ ", " ++ e ++
          ", " ++ i ++ ", \"/definitions/" ++ EmitJs.escape_js name ++ "\");") := by
  intro w v e i s1 s2 d name
  exact ⟨rfl, rfl⟩

/-- C8: the JS and Rust type-condition tables return the identical
failure-condition string for float32 and float64, namely the
finite-number check of each target; the two widths are indistinguishable
in emitted code. -/
theorem c8_float32_float64_same_condition :
    ∀ val : String,
      EmitJs.type_condition TypeKeyword.float32 val =
        EmitJs.type_condition TypeKeyword.float64 val ∧
      EmitRs.type_condition TypeKeyword.float32 val =
        EmitRs.type_condition TypeKeyword.float64 val ∧
      EmitJs.type_condition TypeKeyword.float32 val =
        "typeof " ++ val ++ " !== \"number\" || !Number.isFinite(" ++ val ++ ")" ∧
      EmitRs.type_condition TypeKeyword.float32 val =
        "!" ++ val ++ ".as_f64().map_or(false, |n| n.is_finite())" := by
  intro val
  exact ⟨rfl, rfl, rfl, rfl⟩

/-- C9 counterexample: close_open on a writer whose depth is already zero
does not leave the depth at zero: the clamped decrement is followed by
the re-indent of the continuation block, so the depth becomes one. -/
theorem c9_counterexample_close_open_depth :
    ¬ ((EmitJs.CodeWriter.close_open EmitJs.CodeWriter.new ("else")).depth = 0) := by
  decide

/-- C9 (amended): at indentation depth zero, close (JS) and dedent
(Python) clamp the decrement and leave the depth at zero rather than
underflowing or panicking; close_open clamps the decrement to zero and
then re-indents for the continuation block, leaving depth one.  The
depth is a natural number, so no operation drives it negative. -/
theorem c9_close_saturates_at_zero :
    ∀ (w : EmitJs.CodeWriter) (p : EmitPy.CodeWriter) (t : String),
      w.depth = 0 → p.depth = 0 →
      (EmitJs.CodeWriter.close w).depth = 0 ∧
      (EmitJs.CodeWriter.close_open w t).depth = 1 ∧
      (EmitPy.CodeWriter.dedent p).depth = 0 ∧
      (EmitPy.CodeWriter.close_open p t).depth = 1 := by
  intro w p t hw hp
  refine ⟨?_, ?_, ?_, ?_⟩ <;> simp [EmitJs.CodeWriter.close, EmitJs.CodeWriter.close_open,
    EmitPy.CodeWriter.dedent, EmitPy.CodeWriter.close_open, hw, hp]

/-- C9 witness: the amended statement evaluated on fresh writers. -/
theorem c9_close_saturates_at_zero_witness :
    EmitJs.CodeWriter.new.depth = 0 ∧ EmitPy.CodeWriter.new.depth = 0 ∧
    ((EmitJs.CodeWriter.close EmitJs.CodeWriter.new).depth = 0 ∧
     (EmitJs.CodeWriter.close_open EmitJs.CodeWriter.new ("else")).depth = 1 ∧
     (EmitPy.CodeWriter.dedent EmitPy.CodeWriter.new).depth = 0 ∧
     (EmitPy.CodeWriter.close_open EmitPy.CodeWriter.new ("else")).depth = 1) :=
  ⟨rfl, rfl, c9_close_saturates_at_zero EmitJs.CodeWriter.new EmitPy.CodeWriter.new ("else") rfl rfl⟩

/-- C7: emitting Nullable(Empty) writes nothing to the code writer, as
does Empty, in every emission context; consequently a compiled schema
whose root is Nullable(Empty) and the same schema with root Empty
produce byte-identical generated modules. -/
theorem c7_nullable_empty_emits_nothing :
    ∀ (fuel : Nat) (w : EmitJs.CodeWriter) (ctx : EmitJs.EmitContext)
      (tag : Option String) (defs : List (String × Node)),
      EmitJs.emit_node fuel w ctx (Node.nullable Node.empty) tag = w ∧
      EmitJs.emit_node fuel w ctx Node.empty tag = w ∧
      EmitJs.emit fuel (CompiledSchema.mk (Node.nullable Node.empty) defs) =
        EmitJs.emit fuel (CompiledSchema.mk Node.empty defs) := by
  have h1 : ∀ (fuel : Nat) (w : EmitJs.CodeWriter) (ctx : EmitJs.EmitContext)
      (tag : Option String),
      EmitJs.emit_node fuel w ctx (Node.nullable Node.empty) tag = w := by
    intro fuel w ctx tag
    cases fuel with
    | zero => rfl
    | succ n => simp [EmitJs.emit_node, EmitJs.emit_nullable, nodeIsEmpty]
  have h2 : ∀ (fuel : Nat) (w : EmitJs.CodeWriter) (ctx : EmitJs.EmitContext)
      (tag : Option String),
      EmitJs.emit_node fuel w ctx Node.empty tag = w := by
    intro fuel w ctx tag
    cases fuel with
    | zero => rfl
    | succ n => simp [EmitJs.emit_node, EmitJs.emit_empty]
  intro fuel w ctx tag defs
  refine ⟨h1 fuel w ctx tag, h2 fuel w ctx tag, ?_⟩
  simp [EmitJs.emit, h1, h2]

/-- Every member of the detected-forms list is one of the seven form
names. -/
theorem detectForms_mem (kvs : List (String × Json)) (f : String)
    (h : f ∈ detectForms kvs) :
    f = "ref" ∨ f = "type" ∨ f = "enum" ∨ f = "elements" ∨ f = "values" ∨
      f = "discriminator" ∨ f = "properties" := by
  simp only [detectForms, List.mem_append] at h
  rcases h with ((((((h | h) | h) | h) | h) | h) | h) <;> split at h <;> simp_all

/-- A successful compile_ref yields a Ref node. -/
theorem compileRef_ok_shape {kvs : List (String × Json)} {defs : List (String × Node)}
    {n : Node} (h : compileRef kvs defs = Except.ok n) : ∃ nm, n = Node.ref nm := by
  unfold compileRef at h
  split at h
  · simp at h
  · split at h
    · simp at h; exact ⟨_, h.symm⟩
    · simp at h

/-- A successful compile_type yields a Type node. -/
theorem compileType_ok_shape {kvs : List (String × Json)}
    {n : Node} (h : compileType kvs = Except.ok n) : ∃ kw, n = Node.type kw := by
  unfold compileType at h
  split at h
  · simp at h
  · split at h
    · simp at h
    · simp at h; exact ⟨_, h.symm⟩

/-- A successful compile_enum yields an Enum node. -/
theorem compileEnum_ok_shape {kvs : List (String × Json)}
    {n : Node} (h : compileEnum kvs = Except.ok n) : ∃ vs, n = Node.enum vs := by
  unfold compileEnum at h
  split at h
  · simp at h
  · split at h
    · simp at h
    · split at h
      · simp at h
      · simp at h; exact ⟨_, h.symm⟩

/-- A successful compile_elements yields an Elements node. -/
theorem compileElements_ok_shape {recurse : Json → Except CompileError Node}
    {kvs : List (String × Json)}
    {n : Node} (h : compileElements recurse kvs = Except.ok n) :
    ∃ m, n = Node.elements m := by
  unfold compileElements at h
  split at h
  · simp at h
  · split at h
    · simp at h
    · simp at h; exact ⟨_, h.symm⟩

/-- A successful compile_values yields a Values node. -/
theorem compileValues_ok_shape {recurse : Json → Except CompileError Node}
    {kvs : List (String × Json)}
    {n : Node} (h : compileValues recurse kvs = Except.ok n) :
    ∃ m, n = Node.values m := by
  unfold compileValues at h
  split at h
  · simp at h
  · split at h
    · simp at h
    · simp at h; exact ⟨_, h.symm⟩

/-- A successful compile_properties yields a Properties node. -/
theorem compileProperties_ok_shape {recurse : Json → Except CompileError Node}
    {kvs : List (String × Json)}
    {n : Node} (h : compileProperties recurse kvs = Except.ok n) :
    ∃ r o a, n = Node.properties r o a := by
  unfold compileProperties at h
  split at h
  · simp at h
  · split at h
    · simp at h
    · simp at h; exact ⟨_, _, _, h.symm⟩

/-- A successful compile_discriminator yields a Discriminator node. -/
theorem compileDiscriminator_ok_shape {recurse : Json → Except CompileError Node}
    {kvs : List (String × Json)}
    {n : Node} (h : compileDiscriminator recurse kvs = Except.ok n) :
    ∃ t m, n = Node.discriminator t m := by
  unfold compileDiscriminator at h
  split at h
  · simp at h
  · split at h
    · simp at h
    · split at h
      · simp at h
      · split at h
        · simp at h
        · simp at h; exact ⟨_, _, h.symm⟩

/-- C3: form detection over a schema object: no form keyword present
compiles to the Empty form (modulo the nullable wrapper); exactly one
form keyword present dispatches to the corresponding form, so any
successful compile of the object yields that form's AST variant under
the optional nullable wrapper; more than one form keyword present fails
with MultipleForms carrying the detected list. -/
theorem c3_form_detection :
    ∀ (kvs : List (String × Json)) (defs : List (String × Node)) (fuel : Nat),
      (detectForms kvs = [] →
        compileNode (fuel + 1) defs (Json.obj kvs) =
          Except.ok (match getKey kvs ("nullable") with
                     | some (Json.bool true) => Node.nullable Node.empty
                     | _ => Node.empty)) ∧
      (∀ f n, detectForms kvs = [f] →
        compileNode (fuel + 1) defs (Json.obj kvs) = Except.ok n →
        formOf (unwrapNullable n) = f) ∧
      (1 < (detectForms kvs).length →
        compileNode (fuel + 1) defs (Json.obj kvs) =
          Except.error (CompileError.MultipleForms (detectForms kvs))) := by
  intro kvs defs fuel
  refine ⟨?_, ?_, ?_⟩
  · intro h
    simp only [compileNode, Json.asObj, h]
    simp only [List.length_nil, List.head?_nil]
    norm_num
    split <;> simp_all
  · intro f n hf hc
    have h7 := detectForms_mem kvs f (by rw [hf]; exact List.mem_singleton_self f)
    simp only [compileNode, Json.asObj] at hc
    rw [hf] at hc
    rcases h7 with rfl | rfl | rfl | rfl | rfl | rfl | rfl <;> simp at hc
    · cases hr : compileRef kvs defs with
      | error e => rw [hr] at hc; simp at hc
      | ok m =>
        rw [hr] at hc
        obtain ⟨nm, rfl⟩ := compileRef_ok_shape hr
        simp at hc
        split at hc <;> simp at hc <;> subst hc <;> rfl
    · cases hr : compileType kvs with
      | error e => rw [hr] at hc; simp at hc
      | ok m =>
        rw [hr] at hc
        obtain ⟨kw, rfl⟩ := compileType_ok_shape hr
        simp at hc
        split at hc <;> simp at hc <;> subst hc <;> rfl
    · cases hr : compileEnum kvs with
      | error e => rw [hr] at hc; simp at hc
      | ok m =>
        rw [hr] at hc
        obtain ⟨vs, rfl⟩ := compileEnum_ok_shape hr
        simp at hc
        split at hc <;> simp at hc <;> subst hc <;> rfl
    · cases hr : compileElements (fun v => compileNode fuel defs v) kvs with
      | error e => rw [hr] at hc; simp at hc
      | ok m =>
        rw [hr] at hc
        obtain ⟨i, rfl⟩ := compileElements_ok_shape hr
        simp at hc
        split at hc <;> simp at hc <;> subst hc <;> rfl
    · cases hr : compileValues (fun v => compileNode fuel defs v) kvs with
      | error e => rw [hr] at hc; simp at hc
      | ok m =>
        rw [hr] at hc
        obtain ⟨i, rfl⟩ := compileValues_ok_shape hr
        simp at hc
        split at hc <;> simp at hc <;> subst hc <;> rfl
    · cases hr : compileDiscriminator (fun v => compileNode fuel defs v) kvs with
      | error e => rw [hr] at hc; simp at hc
      | ok m =>
        rw [hr] at hc
        obtain ⟨t, mm, rfl⟩ := compileDiscriminator_ok_shape hr
        simp at hc
        split at hc <;> simp at hc <;> subst hc <;> rfl
    · cases hr : compileProperties (fun v => compileNode fuel defs v) kvs with
      | error e => rw [hr] at hc; simp at hc
      | ok m =>
        rw [hr] at hc
        obtain ⟨r, o, a, rfl⟩ := compileProperties_ok_shape hr
        simp at hc
        split at hc <;> simp at hc <;> subst hc <;> rfl
  · intro h
    simp only [compileNode, Json.asObj]
    rw [if_pos h]

/-- C3 witness: the zero-form case evaluated on the empty object. -/
theorem c3_form_detection_witness :
    detectForms ([] : List (String × Json)) = [] ∧
    compileNode 1 [] (Json.obj []) =
      Except.ok (match getKey ([] : List (String × Json)) ("nullable") with
                 | some (Json.bool true) => Node.nullable Node.empty
                 | _ => Node.empty) :=
  ⟨rfl, (c3_form_detection [] [] 0).1 rfl⟩

/-- Pass 1 registers exactly the definition keys. -/
theorem hasName_placeholders (dkvs : List (String × Json)) (x : String) :
    hasName (placeholders dkvs) x = hasName dkvs x := by
  induction dkvs with
  | nil => rfl
  | cons p rest ih =>
    simp only [placeholders, List.map_cons, hasName, List.any_cons] at ih ⊢
    rw [ih]

/-- A pass-2 insertion never changes the key set of the map. -/
theorem hasName_insertReplace (defs : List (String × Node)) (key : String) (m : Node)
    (x : String) : hasName (insertReplace defs key m) x = hasName defs x := by
  induction defs with
  | nil => rfl
  | cons p rest ih =>
    simp only [insertReplace, List.map_cons, hasName, List.any_cons] at ih ⊢
    rw [ih]
    congr 1
    split <;> rfl

/-- Any sequence of pass-2 insertions keeps the key set of the map. -/
theorem hasName_applyUpdates (defs updates : List (String × Node)) (x : String) :
    hasName (applyUpdates defs updates) x = hasName defs x := by
  induction updates generalizing defs with
  | nil => rfl
  | cons u rest ih =>
    simp only [applyUpdates, List.foldl_cons] at ih ⊢
    rw [ih (insertReplace defs u.1 u.2), hasName_insertReplace]

/-- A ref schema compiles to the Ref node whenever its target name is a
key of the definitions map. -/
theorem compileNode_ref_ok (fuel : Nat) (defs : List (String × Node)) (name : String)
    (h : hasName defs name = true) :
    compileNode (fuel + 1) defs (Json.obj [(("ref" : String), Json.str name)]) =
      Except.ok (Node.ref name) := by
  simp [compileNode, Json.asObj, detectForms, hasKey, getKey, compileRef, Json.asStr, h]

/-- C6: two-pass resolution: pass 1 registers every definition name, so
the placeholder map has exactly the root definition keys; every map
reachable from it by pass-2 insertions (any declaration order, any
prefix of bodies already compiled) still has those keys; and against any
such map a ref schema naming any root definition compiles successfully
to the Ref node, which covers self-referencing and mutually recursive
definitions regardless of textual order. -/
theorem c6_two_pass_ref_resolution :
    ∀ (dkvs : List (String × Json)) (updates : List (String × Node))
      (name : String) (fuel : Nat),
      hasName dkvs name = true →
      hasName (placeholders dkvs) name = true ∧
      hasName (applyUpdates (placeholders dkvs) updates) name = true ∧
      compileNode (fuel + 1) (applyUpdates (placeholders dkvs) updates)
          (Json.obj [(("ref" : String), Json.str name)]) =
        Except.ok (Node.ref name) := by
  intro dkvs updates name fuel h
  have hp : hasName (placeholders dkvs) name = true := by
    rw [hasName_placeholders]; exact h
  have ha : hasName (applyUpdates (placeholders dkvs) updates) name = true := by
    rw [hasName_applyUpdates]; exact hp
  exact ⟨hp, ha, compileNode_ref_ok fuel _ name ha⟩

/-- C6 witness: a definition referring to a name declared after it, with
one body already compiled. -/
theorem c6_two_pass_ref_resolution_witness :
    hasName [(("b" : String), Json.obj []), (("a" : String), Json.obj [])] ("a") = true ∧
    (hasName (placeholders [(("b" : String), Json.obj []), (("a" : String), Json.obj [])])
        ("a") = true ∧
     hasName (applyUpdates
        (placeholders [(("b" : String), Json.obj []), (("a" : String), Json.obj [])])
        [(("b" : String), Node.empty)]) ("a") = true ∧
     compileNode 1 (applyUpdates
        (placeholders [(("b" : String), Json.obj []), (("a" : String), Json.obj [])])
        [(("b" : String), Node.empty)])
        (Json.obj [(("ref" : String), Json.str ("a"))]) =
       Except.ok (Node.ref ("a"))) :=
  ⟨rfl, c6_two_pass_ref_resolution
    [(("b" : String), Json.obj []), (("a" : String), Json.obj [])]
    [(("b" : String), Node.empty)] ("a") 0 rfl⟩

/-- Erasing one key leaves every other key's lookup unchanged. -/
theorem getKey_eraseKey (kvs : List (String × Json)) (k0 k : String) (h : k ≠ k0) :
    getKey (eraseKey kvs k0) k = getKey kvs k := by
  induction kvs with
  | nil => rfl
  | cons p rest ih =>
    by_cases hp : p.1 = k0
    · have hq : (p.1 == k) = false :=
        beq_eq_false_iff_ne.mpr (fun hh => h (by rw [← hh, hp]))
      have hp2 : (p.1 == k0) = true := beq_iff_eq.mpr hp
      simpa [eraseKey, getKey, List.filter_cons, List.find?_cons, hp2, hq] using ih
    · have hp2 : (p.1 == k0) = false := beq_eq_false_iff_ne.mpr hp
      by_cases hq : p.1 = k
      · have hq2 : (p.1 == k) = true := beq_iff_eq.mpr hq
        simp [eraseKey, getKey, List.filter_cons, List.find?_cons, hp2, hq2]
      · have hq2 : (p.1 == k) = false := beq_eq_false_iff_ne.mpr hq
        simpa [eraseKey, getKey, List.filter_cons, List.find?_cons, hp2, hq2] using ih

/-- Looking up the erased key yields nothing. -/
theorem getKey_eraseKey_self (kvs : List (String × Json)) (k0 : String) :
    getKey (eraseKey kvs k0) k0 = none := by
  induction kvs with
  | nil => rfl
  | cons p rest ih =>
    by_cases hp : p.1 = k0
    · have hp2 : (p.1 == k0) = true := beq_iff_eq.mpr hp
      simp only [eraseKey, List.filter_cons, hp2, Bool.not_true]
      simpa [eraseKey] using ih
    · have hp2 : (p.1 == k0) = false := beq_eq_false_iff_ne.mpr hp
      simp [eraseKey, getKey, List.filter_cons, List.find?_cons, hp2]

/-- C10: compile_properties treats an additionalProperties key holding a
non-boolean value exactly like an absent additionalProperties key: the
recorded additional flag is false and the compile result is identical to
compiling the object with the key erased, so compilation never fails on
that account. -/
theorem c10_additional_properties_ignores_non_boolean :
    ∀ (recurse : Json → Except CompileError Node) (kvs : List (String × Json)),
      (getKey kvs ("additionalProperties")).bind Json.asBool = none →
      propAdditional kvs = false ∧
      compileProperties recurse kvs =
        compileProperties recurse (eraseKey kvs ("additionalProperties")) := by
  intro recurse kvs h
  have hA : propAdditional kvs = false := by simp [propAdditional, h]
  have h1 : getKey (eraseKey kvs ("additionalProperties")) ("properties") =
      getKey kvs ("properties") := getKey_eraseKey kvs _ _ (by decide)
  have h2 : getKey (eraseKey kvs ("additionalProperties")) ("optionalProperties") =
      getKey kvs ("optionalProperties") := getKey_eraseKey kvs _ _ (by decide)
  have h3 : propAdditional (eraseKey kvs ("additionalProperties")) = false := by
    simp [propAdditional, getKey_eraseKey_self]
  refine ⟨hA, ?_⟩
  simp [compileProperties, h1, h2, hA, h3]

/-- C10 witness: a properties object whose additionalProperties value is
the string yes. -/
theorem c10_additional_properties_witness :
    (getKey [(("properties" : String), Json.obj []),
             (("additionalProperties" : String), Json.str ("yes"))]
       ("additionalProperties")).bind Json.asBool = none ∧
    (propAdditional [(("properties" : String), Json.obj []),
                     (("additionalProperties" : String), Json.str ("yes"))] = false ∧
     compileProperties (fun _ => Except.ok Node.empty)
        [(("properties" : String), Json.obj []),
         (("additionalProperties" : String), Json.str ("yes"))] =
       compileProperties (fun _ => Except.ok Node.empty)
        (eraseKey [(("properties" : String), Json.obj []),
                   (("additionalProperties" : String), Json.str ("yes"))]
          ("additionalProperties"))) :=
  ⟨rfl, c10_additional_properties_ignores_non_boolean (fun _ => Except.ok Node.empty)
    [(("properties" : String), Json.obj []),
     (("additionalProperties" : String), Json.str ("yes"))] rfl⟩

/-- Every entry of a successfully compiled discriminator mapping is a
Properties node whose required and optional keys exclude the tag. -/
theorem compileMapping_ok_entries (recurse : Json → Except CompileError Node)
    (tag : String) (entries : List (String × Json)) (res : List (String × Node))
    (h : compileMapping recurse tag entries = Except.ok res) :
    ∀ p ∈ res, ∃ req opt add, p.2 = Node.properties req opt add ∧
      hasName req tag = false ∧ hasName opt tag = false := by
  induction entries generalizing res with
  | nil =>
    simp [compileMapping] at h
    subst h
    simp
  | cons e rest ih =>
    obtain ⟨k, v⟩ := e
    unfold compileMapping at h
    cases hr : recurse v with
    | error er => rw [hr] at h; simp at h
    | ok n =>
      rw [hr] at h
      cases n with
      | properties req opt add =>
        by_cases hb : (hasName req tag || hasName opt tag) = true
        · simp [hb] at h
        · simp [hb] at h
          cases hrest : compileMapping recurse tag rest with
          | error er => rw [hrest] at h; simp at h
          | ok ns =>
            rw [hrest] at h
            simp at h
            subst h
            intro p hp
            rcases List.mem_cons.mp hp with rfl | hmem
            · simp only [Bool.or_eq_true, not_or, Bool.not_eq_true] at hb
              exact ⟨req, opt, add, rfl, hb.1, hb.2⟩
            · exact ih ns hrest p hmem
      | empty => simp at h
      | ref a => simp at h
      | type a => simp at h
      | enum a => simp at h
      | elements a => simp at h
      | values a => simp at h
      | discriminator a b => simp at h
      | nullable a => simp at h

/-- C5: a successfully compiled Discriminator node carries a mapping in
which every entry is a non-Nullable Properties node excluding the tag
from both key sets; a mapping value compiling to any other node (a
Nullable wrapper included) is rejected with MappingNotProperties; and a
mapping value compiling to a Properties node that declares the tag among
its required or optional keys is rejected with TagInVariant. -/
theorem c5_discriminator_mapping_invariants :
    ∀ (recurse : Json → Except CompileError Node) (kvs : List (String × Json))
      (k : String) (v : Json) (rest : List (String × Json)) (tag : String) (n nd : Node),
      (compileDiscriminator recurse kvs = Except.ok nd →
        ∃ tag2 mapping, nd = Node.discriminator tag2 mapping ∧
          ∀ p ∈ mapping, ∃ req opt add, p.2 = Node.properties req opt add ∧
            hasName req tag2 = false ∧ hasName opt tag2 = false) ∧
      (recurse v = Except.ok n → (∀ req opt add, n ≠ Node.properties req opt add) →
        compileMapping recurse tag ((k, v) :: rest) =
          Except.error CompileError.MappingNotProperties) ∧
      (∀ req opt add, recurse v = Except.ok (Node.properties req opt add) →
        (hasName req tag || hasName opt tag) = true →
        compileMapping recurse tag ((k, v) :: rest) =
          Except.error (CompileError.TagInVariant tag)) := by
  intro recurse kvs k v rest tag n nd
  refine ⟨?_, ?_, ?_⟩
  · intro h
    unfold compileDiscriminator at h
    split at h
    · simp at h
    · split at h
      · simp at h
      · split at h
        · simp at h
        · split at h
          · simp at h
          · simp at h
            exact ⟨_, _, h.symm, compileMapping_ok_entries recurse _ _ _ (by assumption)⟩
  · intro h hnp
    unfold compileMapping
    rw [h]
    cases n with
    | properties req opt add => exact absurd rfl (hnp req opt add)
    | empty => rfl
    | ref a => rfl
    | type a => rfl
    | enum a => rfl
    | elements a => rfl
    | values a => rfl
    | discriminator a b => rfl
    | nullable a => rfl
  · intro req opt add h hb
    unfold compileMapping
    rw [h]
    simp [hb]

/-- C5 witness: a mapping entry compiling to the Empty form is rejected
with MappingNotProperties. -/
theorem c5_discriminator_mapping_witness :
    ((fun _ : Json => (Except.ok Node.empty : Except CompileError Node)) (Json.obj []) =
        Except.ok Node.empty) ∧
    (∀ req opt add, Node.empty ≠ Node.properties req opt add) ∧
    compileMapping (fun _ => (Except.ok Node.empty : Except CompileError Node)) ("t")
        [(("cat" : String), Json.obj [])] =
      Except.error CompileError.MappingNotProperties :=
  ⟨rfl, fun _ _ _ h => Node.noConfusion h,
   (c5_discriminator_mapping_invariants
      (fun _ => (Except.ok Node.empty : Except CompileError Node)) []
      ("cat") (Json.obj []) [] ("t") Node.empty Node.empty).2.1 rfl
     (fun _ _ _ h => Node.noConfusion h)⟩
